import Mathlib

/-!
# Verification of the gostream video pipeline core

Shallow embedding of the gostream repository's domain core: the `Video`
entity and its status state machine (`internal/domain/model/video.go`),
the lifecycle service (`internal/usecase/video_service.go`), the cached
read service (`internal/usecase/cached_video_service.go`), the Redis
metadata cache codec (`internal/infrastructure/cache/redis.go`), the
broker consume loop, the worker task processing service, and the FFmpeg
master-playlist synthesis.

Conventions of the embedding:
* Go machine integers that only ever hold non-negative values in the
  program (retry counters, variant heights, bitrates) are `Nat`;
  Go integer division on non-negative values is `Nat` division.
* Timestamps are `Nat` nanoseconds since the Unix epoch at UTC; calls to
  `time.Now()` are modelled by an explicit `now` argument threaded to the
  operation.
* Effectful calls (repository, object storage, queue, cache) are modelled
  by explicit outcome oracles and by returning the performed effects,
  so the state after the call is a value the theorems can inspect.
-/

/-- Go `time.Time` modelled as nanoseconds since the Unix epoch, at UTC. -/
abbrev Time := Nat

/-! ## Status (Go `type Status string`, video.go) -/

/-- Go `type Status string`. A status is a string; the four canonical
values are listed below, but the type itself admits any string, exactly
as in Go. -/
abbrev Status := String

/-- Go `StatusPendingUpload`. -/
def statusPendingUpload : Status := "PENDING_UPLOAD"

/-- Go `StatusProcessing`. -/
def statusProcessing : Status := "PROCESSING"

/-- Go `StatusReady`. -/
def statusReady : Status := "READY"

/-- Go `StatusFailed`. -/
def statusFailed : Status := "FAILED"

/-- Go `validTransitions` map (video.go). The Go map literal is modelled
as a lookup function returning `none` for keys absent from the map. -/
def validTransitions (s : Status) : Option (List Status) :=
  if s = statusPendingUpload then some [statusProcessing]
  else if s = statusProcessing then some [statusReady, statusFailed]
  else if s = statusReady then some []
  else if s = statusFailed then some []
  else none

/-- Go `Status.IsValid` (video.go): the switch over the four constants. -/
def Status.isValid (s : Status) : Bool :=
  s = statusPendingUpload || s = statusProcessing || s = statusReady || s = statusFailed

/-- Go `Status.CanTransitionTo` (video.go): look up the allowed list in
`validTransitions`; absent key means false; otherwise scan the list. -/
def Status.canTransitionTo (s next : Status) : Bool :=
  match validTransitions s with
  | none => false
  | some allowed => allowed.contains next

/-- The three permitted transition pairs of the state machine, as listed
by the spec (`PENDING_UPLOAD → PROCESSING`, `PROCESSING → READY`,
`PROCESSING → FAILED`). -/
def permittedTransitions : List (Status × Status) :=
  [(statusPendingUpload, statusProcessing),
   (statusProcessing, statusReady),
   (statusProcessing, statusFailed)]

/-! ## UUIDs (github.com/google/uuid, canonical form)

`uuid.UUID` is an array of 16 bytes; `String()` renders the canonical
lowercase-hex `xxxxxxxx-xxxx-xxxx-xxxx-xxxxxxxxxxxx` form and `Parse`
decodes it (accepting both hex cases). -/

/-- Lowercase hex digit for a nibble, as emitted by `uuid.String()`. -/
def nibbleChar (n : Fin 16) : Char :=
  if n.val < 10 then Char.ofNat (48 + n.val) else Char.ofNat (87 + n.val)

/-- Hex digit value of a character; accepts both cases, as Go `xtob`. -/
def hexVal (c : Char) : Option (Fin 16) :=
  if h : 48 ≤ c.toNat ∧ c.toNat ≤ 57 then some ⟨c.toNat - 48, by omega⟩
  else if h : 97 ≤ c.toNat ∧ c.toNat ≤ 102 then some ⟨c.toNat - 87, by omega⟩
  else if h : 65 ≤ c.toNat ∧ c.toNat ≤ 70 then some ⟨c.toNat - 55, by omega⟩
  else none

/-- High nibble of a byte. -/
def byteHi (b : Fin 256) : Fin 16 := ⟨b.val / 16, by omega⟩

/-- Low nibble of a byte. -/
def byteLo (b : Fin 256) : Fin 16 := ⟨b.val % 16, by omega⟩

/-- The two hex characters of one byte. -/
def byteChars (b : Fin 256) : List Char :=
  [nibbleChar (byteHi b), nibbleChar (byteLo b)]

/-- Decode two hex characters into a byte (Go `xtob`). -/
def hexByte (c1 c2 : Char) : Option (Fin 256) :=
  match hexVal c1, hexVal c2 with
  | some hi, some lo => some ⟨16 * hi.val + lo.val, by omega⟩
  | _, _ => none

/-- Go `uuid.UUID`: 16 bytes. -/
structure UUID where
  b0 : Fin 256
  b1 : Fin 256
  b2 : Fin 256
  b3 : Fin 256
  b4 : Fin 256
  b5 : Fin 256
  b6 : Fin 256
  b7 : Fin 256
  b8 : Fin 256
  b9 : Fin 256
  b10 : Fin 256
  b11 : Fin 256
  b12 : Fin 256
  b13 : Fin 256
  b14 : Fin 256
  b15 : Fin 256
deriving DecidableEq

/-- Go `uuid.Nil`: the zero UUID. -/
def uuidNil : UUID := ⟨0, 0, 0, 0, 0, 0, 0, 0, 0, 0, 0, 0, 0, 0, 0, 0⟩

/-- Go `uuid.UUID.String()`: canonical `8-4-4-4-12` lowercase hex form. -/
def uuidToString (u : UUID) : String :=
  ⟨byteChars u.b0 ++ byteChars u.b1 ++ byteChars u.b2 ++ byteChars u.b3 ++
    '-' :: (byteChars u.b4 ++ byteChars u.b5 ++
    '-' :: (byteChars u.b6 ++ byteChars u.b7 ++
    '-' :: (byteChars u.b8 ++ byteChars u.b9 ++
    '-' :: (byteChars u.b10 ++ byteChars u.b11 ++ byteChars u.b12 ++
            byteChars u.b13 ++ byteChars u.b14 ++ byteChars u.b15))))⟩

/-- Go `uuid.Parse` restricted to the canonical 36-character form: dashes at
positions 8, 13, 18 and 23, hex byte pairs elsewhere. -/
def uuidParse (s : String) : Option UUID :=
  match s.data with
  | a1 :: a2 :: a3 :: a4 :: a5 :: a6 :: a7 :: a8 :: '-' ::
    c1 :: c2 :: c3 :: c4 :: '-' :: d1 :: d2 :: d3 :: d4 :: '-' ::
    e1 :: e2 :: e3 :: e4 :: '-' ::
    f1 :: f2 :: f3 :: f4 :: f5 :: f6 :: f7 :: f8 :: f9 :: f10 :: f11 :: f12 :: [] => do
    let x0 ← hexByte a1 a2
    let x1 ← hexByte a3 a4
    let x2 ← hexByte a5 a6
    let x3 ← hexByte a7 a8
    let x4 ← hexByte c1 c2
    let x5 ← hexByte c3 c4
    let x6 ← hexByte d1 d2
    let x7 ← hexByte d3 d4
    let x8 ← hexByte e1 e2
    let x9 ← hexByte e3 e4
    let x10 ← hexByte f1 f2
    let x11 ← hexByte f3 f4
    let x12 ← hexByte f5 f6
    let x13 ← hexByte f7 f8
    let x14 ← hexByte f9 f10
    let x15 ← hexByte f11 f12
    some ⟨x0, x1, x2, x3, x4, x5, x6, x7, x8, x9, x10, x11, x12, x13, x14, x15⟩
  | _ => none

/-! ## RFC3339Nano timestamps (Go `time` package, UTC instants)

`redis.go` serializes timestamps with `Format(time.RFC3339Nano)` and reads
them back with `Parse(time.RFC3339Nano)`. The model covers UTC instants
at or after the Unix epoch: the formatter renders
`YYYY-MM-DDTHH:MM:SS[.fraction]Z` (fraction with trailing zeros removed,
omitted when zero, as RFC3339Nano does), and the parser accepts exactly
the texts of that shape, range validation of the fields elided. The
civil-date arithmetic is the standard days-from-epoch algorithm. -/

/-- Left-pad the decimal form of `n` with zeros to width `w`. -/
def zeroPad (w n : Nat) : String :=
  let s := toString n
  String.mk (List.replicate (w - s.length) '0' ++ s.data)

/-- Civil date `(year, month, day)` of a day count since 1970-01-01. -/
def civilFromDays (z : Nat) : Nat × Nat × Nat :=
  let z := z + 719468
  let era := z / 146097
  let doe := z % 146097
  let yoe := ((doe + doe / 36524) - (doe / 1460 + doe / 146096)) / 365
  let y := yoe + era * 400
  let doy := doe - ((365 * yoe + yoe / 4) - yoe / 100)
  let mp := (5 * doy + 2) / 153
  let d := (doy - (153 * mp + 2) / 5) + 1
  let m := if mp < 10 then mp + 3 else mp - 9
  (if m ≤ 2 then y + 1 else y, m, d)

/-- Day count since 1970-01-01 of a civil date (for dates at or after
the epoch). -/
def daysFromCivil (y m d : Nat) : Nat :=
  let y := if m ≤ 2 then y - 1 else y
  let era := y / 400
  let yoe := y - era * 400
  let mp := if 2 < m then m - 3 else m + 9
  let doy := ((153 * mp + 2) / 5 + d) - 1
  let doe := ((yoe * 365 + yoe / 4) - yoe / 100) + doy
  (era * 146097 + doe) - 719468

/-- Fractional-second text of RFC3339Nano: empty when the nanosecond
part is zero, otherwise a dot followed by nine digits with trailing
zeros removed. -/
def fracString (ns : Nat) : String :=
  if ns = 0 then ""
  else "." ++ String.mk (((zeroPad 9 ns).data.reverse.dropWhile (· = '0')).reverse)

/-- Go `time.Time.Format(time.RFC3339Nano)` on a UTC instant. -/
def timeFormat (t : Time) : String :=
  let sec := t / 1000000000
  let ns := t % 1000000000
  let days := sec / 86400
  let sod := sec % 86400
  let c := civilFromDays days
  zeroPad 4 c.1 ++ "-" ++ zeroPad 2 c.2.1 ++ "-" ++ zeroPad 2 c.2.2 ++ "T" ++
    zeroPad 2 (sod / 3600) ++ ":" ++ zeroPad 2 (sod % 3600 / 60) ++ ":" ++
    zeroPad 2 (sod % 60) ++ fracString ns ++ "Z"

/-- Decimal digit value of a character. -/
def digitVal (c : Char) : Option Nat :=
  if 48 ≤ c.toNat ∧ c.toNat ≤ 57 then some (c.toNat - 48) else none

/-- Parse two decimal digits. -/
def parseNat2 (a b : Char) : Option Nat := do
  let x ← digitVal a
  let y ← digitVal b
  pure (10 * x + y)

/-- Parse four decimal digits. -/
def parseNat4 (a b c d : Char) : Option Nat := do
  let x ← parseNat2 a b
  let y ← parseNat2 c d
  pure (100 * x + y)

/-- Parse the fractional digits up to the closing `Z` of an RFC3339Nano
text, yielding nanoseconds: at least one and at most nine digits, scaled
as if right-padded with zeros to nine places. -/
def fracLoop : List Char → Nat → Nat → Option Nat
  | ['Z'], acc, count =>
    if count = 0 ∨ 9 < count then none else some (acc * 10 ^ (9 - count))
  | c :: rest, acc, count => do
    let d ← digitVal c
    fracLoop rest (acc * 10 + d) (count + 1)
  | [], _, _ => none

/-- Go `time.Parse(time.RFC3339Nano, s)` on the UTC texts produced by
`timeFormat`. -/
def timeParse (s : String) : Option Time :=
  match s.data with
  | y1 :: y2 :: y3 :: y4 :: '-' :: mo1 :: mo2 :: '-' :: d1 :: d2 :: 'T' ::
    h1 :: h2 :: ':' :: mi1 :: mi2 :: ':' :: s1 :: s2 :: rest => do
    let y ← parseNat4 y1 y2 y3 y4
    let mo ← parseNat2 mo1 mo2
    let d ← parseNat2 d1 d2
    let h ← parseNat2 h1 h2
    let mi ← parseNat2 mi1 mi2
    let se ← parseNat2 s1 s2
    let ns ← match rest with
      | ['Z'] => some 0
      | '.' :: ds => fracLoop ds 0 0
      | _ => none
    some ((daysFromCivil y mo d * 86400 + h * 3600 + mi * 60 + se) * 1000000000 + ns)
  | _ => none

/-! ## Video entity (video.go) -/

/-- The sentinel errors of the domain model (video.go). -/
inductive VideoErr where
  | emptyTitle
  | invalidUserID
  | invalidTransition
  | titleTooLong
deriving DecidableEq

/-- Go `model.Video`. -/
structure Video where
  id : UUID
  userID : UUID
  title : String
  status : Status
  originalURL : String
  hlsURL : String
  createdAt : Time
  updatedAt : Time
deriving DecidableEq

/-- Go `maxTitleLength`. -/
def maxTitleLength : Nat := 255

/-- Go `NewVideo(userID, title)`. The fresh identifier drawn from
`uuid.New()` and the `time.Now()` reading are passed explicitly. Note
the title emptiness test is `title == ""` on the raw string, and the
length test is `len(title)`, i.e. the UTF-8 byte length. -/
def newVideo (userID : UUID) (title : String) (freshID : UUID) (now : Time) :
    Except VideoErr Video :=
  if userID = uuidNil then .error .invalidUserID
  else if title = "" then .error .emptyTitle
  else if maxTitleLength < title.utf8ByteSize then .error .titleTooLong
  else .ok
    { id := freshID, userID := userID, title := title,
      status := statusPendingUpload, originalURL := "", hlsURL := "",
      createdAt := now, updatedAt := now }

/-- Go `(*Video).TransitionTo(next)`. The Go method mutates the receiver
and returns an error; the model returns the error slot together with the
receiver after the call (unchanged when the transition is refused). The
`time.Now()` reading is the explicit `now`. -/
def Video.transitionTo (v : Video) (next : Status) (now : Time) :
    Option VideoErr × Video :=
  if ¬ Status.isValid next then (some .invalidTransition, v)
  else if ¬ Status.canTransitionTo v.status next then (some .invalidTransition, v)
  else (none, { v with status := next, updatedAt := now })

/-- Go `(*Video).SetHLSURL(url)`. -/
def Video.setHLSURL (v : Video) (url : String) (now : Time) : Video :=
  { v with hlsURL := url, updatedAt := now }

/-! ## Lifecycle service (video_service.go) -/

/-- Go `path.Join(a, b)` for the non-empty, already-clean, slash-free
segments this program joins (`"hls"`, `"originals"`, canonical UUID
strings, file names): the segments joined with a single slash. -/
def pathJoin (a b : String) : String := a ++ "/" ++ b

/-- Go `repository.TranscodeTask` (storage.go). JSON field names:
`video_id`, `original_key`, `output_key`, `retry_count`. -/
structure TranscodeTask where
  videoID : UUID
  originalKey : String
  outputKey : String
  retryCount : Nat
deriving DecidableEq

/-- Errors surfaced by the lifecycle service (video_service.go). Wrapped
repository, queue and domain errors are collapsed to their kind. -/
inductive ServiceErr where
  | alreadyCompleted
  | videoError (e : VideoErr)
  | updateVideoStatus
  | publishTranscodeTask
deriving DecidableEq

/-- Go `generateHLSOutputKey` (video_service.go):
`path.Join("hls", videoID.String()) + "/"`. -/
def generateHLSOutputKey (videoID : UUID) : String :=
  pathJoin "hls" (uuidToString videoID) ++ "/"

/-- Go `(*videoService).TriggerProcess`, given the video the repository
returned for the id. `updateOk` and `publishOk` are the outcomes of
`repo.Update` and `queue.PublishTranscodeTask`; the result carries the
error slot, the video written by `repo.Update` (if any) and the task
handed to the queue (if any). Note the row update happens before the
publish, so a failed publish leaves the row persisted in PROCESSING. -/
def triggerProcess (video : Video) (now : Time) (updateOk publishOk : Bool) :
    Option ServiceErr × Option Video × Option TranscodeTask :=
  if video.status = statusProcessing then (none, none, none)
  else if video.status = statusReady ∨ video.status = statusFailed then
    (some .alreadyCompleted, none, none)
  else
    match video.transitionTo statusProcessing now with
    | (some e, _) => (some (.videoError e), none, none)
    | (none, video') =>
      if ¬ updateOk then (some .updateVideoStatus, none, none)
      else
        let task : TranscodeTask :=
          { videoID := video.id, originalKey := video.originalURL,
            outputKey := generateHLSOutputKey video.id, retryCount := 0 }
        if ¬ publishOk then (some .publishTranscodeTask, some video', none)
        else (none, some video', some task)

/-! ## Broker consume loop (RabbitMQ client, `ConsumeTranscodeTasks`) -/

/-- The terminal disposition of one broker delivery: `ack`, or nack with
`requeue=false` (the loop never nacks with requeue). -/
inductive AckAction where
  | ack
  | nackDiscard
deriving DecidableEq

/-- One iteration of the `ConsumeTranscodeTasks` loop, for a single
delivery. `parsed` is the outcome of `json.Unmarshal` on the payload
(`none` for a malformed payload); `handlerOk` tells whether the handler
call returns nil; `republishOk` tells whether the retry republish
succeeds. Returns the disposition of the original delivery, the task
republished as a new message (if any), and the list of tasks the handler
was invoked on. -/
def consumeStep (parsed : Option TranscodeTask) (handlerOk : TranscodeTask → Bool)
    (republishOk : Bool) : AckAction × Option TranscodeTask × List TranscodeTask :=
  match parsed with
  | none => (.nackDiscard, none, [])
  | some task =>
    if handlerOk task then (.ack, none, [task])
    else
      let task' := { task with retryCount := task.retryCount + 1 }
      if republishOk then (.ack, some task', [task])
      else (.nackDiscard, none, [task])

/-! ## Worker task-processing service (`ProcessTask`) -/

/-- Default `MaxRetries` of the transcode service configuration. -/
def defaultMaxRetries : Nat := 3

/-- Outcome oracles for the effectful collaborators of one
`ProcessTask` call: the video row the repository returns for the task's
id (or a repository error), and success of the repository update, the
cache delete, the download, the transcode and the uploads. `hasCache`
is whether a cache was wired into the service (it is optional). -/
structure WorkerEnv where
  maxRetries : Nat
  repoVideo : Except String Video
  updateOk : Bool
  hasCache : Bool
  deleteOk : Bool
  downloadOk : Bool
  transcodeOk : Bool
  uploadOk : Bool

/-- The externally visible effects of one `ProcessTask` call: the video
written by `repo.Update` (if any), whether the cache entry was removed,
and whether a download, transcode or upload was attempted. -/
structure WorkerEffects where
  persisted : Option Video
  cacheDeleted : Bool
  downloaded : Bool
  transcoded : Bool
  uploaded : Bool
deriving DecidableEq

/-- No effect performed. -/
def noEffects : WorkerEffects :=
  { persisted := none, cacheDeleted := false, downloaded := false,
    transcoded := false, uploaded := false }

/-- Go `(*transcodeService).invalidateCache`: no-op without a cache;
a failed delete is logged and leaves the entry in place. Returns whether
the entry was removed. -/
def invalidateCache (env : WorkerEnv) : Bool :=
  if ¬ env.hasCache then false else env.deleteOk

/-- Go `(*transcodeService).markVideoFailed`: fetch the row, return nil
without mutation unless it is PROCESSING, else transition to FAILED,
persist, and invalidate the cache. -/
def markVideoFailed (env : WorkerEnv) (now : Time) :
    Option String × WorkerEffects :=
  match env.repoVideo with
  | .error e => (some ("get video: " ++ e), noEffects)
  | .ok video =>
    if video.status ≠ statusProcessing then (none, noEffects)
    else
      match video.transitionTo statusFailed now with
      | (some _, _) => (some "transition to failed", noEffects)
      | (none, video') =>
        if ¬ env.updateOk then (some "update video", noEffects)
        else
          (none,
           { noEffects with persisted := some video', cacheDeleted := invalidateCache env })

/-- Go `(*transcodeService).markVideoReady`: fetch the row, return nil
without mutation unless it is PROCESSING, else set the HLS key,
transition to READY, persist, and invalidate the cache. -/
def markVideoReady (env : WorkerEnv) (hlsKey : String) (now : Time) :
    Option String × WorkerEffects :=
  match env.repoVideo with
  | .error e => (some ("get video: " ++ e), noEffects)
  | .ok video =>
    if video.status ≠ statusProcessing then (none, noEffects)
    else
      match (video.setHLSURL hlsKey now).transitionTo statusReady now with
      | (some _, _) => (some "transition to ready", noEffects)
      | (none, video') =>
        if ¬ env.updateOk then (some "update video", noEffects)
        else
          (none,
           { noEffects with persisted := some video', cacheDeleted := invalidateCache env })

/-- Steps 2-8 of `ProcessTask` (the non-terminalizing path): download
the original, transcode to ABR, upload the outputs, then mark the video
READY with `hls_url = {output_key}master.m3u8`. Each step records its
attempt and aborts the call with an error on failure. -/
def transcodePipeline (task : TranscodeTask) (env : WorkerEnv) (now : Time) :
    Option String × WorkerEffects :=
  if ¬ env.downloadOk then
    (some "download original", { noEffects with downloaded := true })
  else if ¬ env.transcodeOk then
    (some "transcode", { noEffects with downloaded := true, transcoded := true })
  else if ¬ env.uploadOk then
    (some "upload ABR files",
     { noEffects with downloaded := true, transcoded := true, uploaded := true })
  else
    let r := markVideoReady env (task.outputKey ++ "master.m3u8") now
    (r.1.map ("update video status: " ++ ·),
     { r.2 with downloaded := true, transcoded := true, uploaded := true })

/-- Go `(*transcodeService).ProcessTask`. When the task's retry count
has reached the limit, terminalize through `markVideoFailed` and return
nil even when that fails; otherwise run the download-transcode-upload
pipeline. -/
def processTask (task : TranscodeTask) (env : WorkerEnv) (now : Time) :
    Option String × WorkerEffects :=
  if env.maxRetries ≤ task.retryCount then
    let r := markVideoFailed env now
    (none, r.2)
  else
    transcodePipeline task env now

/-! ## Cached read service (cached_video_service.go) -/

/-- Outcome of `cache.Get(id)` in the Redis cache contract: a hit with
the deserialized entity, a miss (`nil, nil`), or an error (`nil, err`). -/
inductive CacheGet where
  | hit (video : Video)
  | miss
  | errored
deriving DecidableEq

/-- Go `(*cachedVideoService).getVideoWithCache` — the cache-aside
pattern. `cget` is the cache outcome; `store` the outcome of the
delegate `GetVideo` (the authoritative read); `setOk` the outcome of
the subsequent `cache.Set`. Returns the result handed back to the
caller, whether the delegate was called, and the entity written into
the cache by this call (if any). A cache error is logged and falls
through to the store; a set failure is logged and ignored. -/
def getVideoWithCache (cget : CacheGet) (store : Except String Video)
    (setOk : Bool) : Except String Video × Bool × Option Video :=
  match cget with
  | .hit video => (.ok video, false, none)
  | .miss | .errored =>
    match store with
    | .error e => (.error e, true, none)
    | .ok video => (.ok video, true, if setOk then some video else none)

/-- Go `(*cachedVideoService).buildCDNURL`:
`fmt.Sprintf("%s/%s", cdnBase, path.Join("hls", videoID.String(), "master.m3u8"))`. -/
def buildCDNURL (cdnBase : String) (videoID : UUID) : String :=
  cdnBase ++ "/" ++ (pathJoin (pathJoin "hls" (uuidToString videoID)) "master.m3u8")

/-- Go `(*cachedVideoService).enrichWithCDNURL`: return the video
untouched unless its status is READY and its `hls_url` non-empty, in
which case return a copy whose `hls_url` is the CDN URL. -/
def enrichWithCDNURL (cdnBase : String) (video : Video) : Video :=
  if video.status ≠ statusReady || video.hlsURL = "" then video
  else { video with hlsURL := buildCDNURL cdnBase video.id }

/-- Go `(*cachedVideoService).GetVideo`: the backing work under the
singleflight group is `getVideoWithCache`; the successful result is
passed through `enrichWithCDNURL` before being returned. The
singleflight group is modelled as a direct call (the concurrency of the
group is out of scope of this sequential embedding). -/
def getVideo (cdnBase : String) (cget : CacheGet) (store : Except String Video)
    (setOk : Bool) : Except String Video × Bool × Option Video :=
  match getVideoWithCache cget store setOk with
  | (.error e, called, written) => (.error e, called, written)
  | (.ok video, called, written) => (.ok (enrichWithCDNURL cdnBase video), called, written)

/-! ## Metadata cache codec (redis.go) -/

/-- Go `videoJSON` (redis.go): the flat string record that is JSON
encoded into the cache. `json.Marshal`/`json.Unmarshal` on this record
invert each other field-for-field, so the byte level of the codec is
modelled as the record itself. -/
structure VideoJSON where
  id : String
  userID : String
  title : String
  status : String
  originalURL : String
  hlsURL : String
  createdAt : String
  updatedAt : String
deriving DecidableEq

/-- Go `(*RedisVideoCache).serialize`. -/
def serialize (video : Video) : VideoJSON :=
  { id := uuidToString video.id
    userID := uuidToString video.userID
    title := video.title
    status := video.status
    originalURL := video.originalURL
    hlsURL := video.hlsURL
    createdAt := timeFormat video.createdAt
    updatedAt := timeFormat video.updatedAt }

/-- Go `(*RedisVideoCache).deserialize`: parse the identifiers and the
timestamps, failing on the first malformed field; the status string is
adopted without validation (`model.Status(v.Status)`). -/
def deserialize (j : VideoJSON) : Except String Video :=
  match uuidParse j.id with
  | none => .error "parse video ID"
  | some id =>
    match uuidParse j.userID with
    | none => .error "parse user ID"
    | some userID =>
      match timeParse j.createdAt with
      | none => .error "parse created_at"
      | some createdAt =>
        match timeParse j.updatedAt with
        | none => .error "parse updated_at"
        | some updatedAt =>
          .ok { id := id, userID := userID, title := j.title,
                status := j.status, originalURL := j.originalURL,
                hlsURL := j.hlsURL, createdAt := createdAt,
                updatedAt := updatedAt }

/-! ## Master playlist synthesis (FFmpeg transcoder) -/

/-- Go `transcoder.Variant`. -/
structure Variant where
  name : String
  height : Nat
  bitrate : Nat
deriving DecidableEq

/-- Go `transcoder.VariantOutput`. -/
structure VariantOutput where
  variant : Variant
  manifestPath : String
  segmentPaths : List String
deriving DecidableEq

/-- Go `transcoder.DefaultABRVariants()`. -/
def defaultABRVariants : List Variant :=
  [{ name := "1080p", height := 1080, bitrate := 5000000 },
   { name := "720p", height := 720, bitrate := 2500000 },
   { name := "360p", height := 360, bitrate := 800000 }]

/-- The width computed in `generateMasterPlaylist`:
`width := v.Variant.Height * 16 / 9` (Go integer division), then
`width++` when odd. -/
def masterWidth (h : Nat) : Nat :=
  let w := h * 16 / 9
  if w % 2 ≠ 0 then w + 1 else w

/-- The per-variant stanza appended by the loop of
`generateMasterPlaylist`. -/
def variantStanza (v : VariantOutput) : String :=
  "#EXT-X-STREAM-INF:BANDWIDTH=" ++ toString v.variant.bitrate ++
    ",RESOLUTION=" ++ toString (masterWidth v.variant.height) ++ "x" ++
    toString v.variant.height ++ "\n" ++
    v.variant.name ++ "/playlist.m3u8\n\n"

/-- Go `generateMasterPlaylist`: the content written to `master.m3u8`
(built in a string builder: header, then one stanza per variant in
source order). -/
def masterPlaylistContent (variants : List VariantOutput) : String :=
  variants.foldl (fun acc v => acc ++ variantStanza v) ("#EXTM3U\n" ++ "#EXT-X-VERSION:3\n\n")

/-- The width formula as the claim words it: the variant height times
16/9 — the exact rational — rounded up to an even integer, i.e. the
least even integer at or above `16*h/9`. -/
def claimWidth (h : Nat) : Nat := 2 * ((16 * h + 17) / 18)

/-- Concatenation of one rendered stanza per variant, in source order
(the claim's "one line per variant ... preserving source ordering"). -/
def stanzaConcat (f : VariantOutput → String) : List VariantOutput → String
  | [] => ""
  | v :: rest => f v ++ stanzaConcat f rest

/-- The per-variant stanza the claim prescribes, with the RESOLUTION
width `claimWidth`. -/
def claimStanza (v : VariantOutput) : String :=
  "#EXT-X-STREAM-INF:BANDWIDTH=" ++ toString v.variant.bitrate ++
    ",RESOLUTION=" ++ toString (claimWidth v.variant.height) ++ "x" ++
    toString v.variant.height ++ "\n" ++
    v.variant.name ++ "/playlist.m3u8\n\n"

/-- The playlist content the claim prescribes: the header followed, in
source order, by one stanza per variant whose RESOLUTION width is
`claimWidth`. -/
def claimPlaylistContent (variants : List VariantOutput) : String :=
  "#EXTM3U\n#EXT-X-VERSION:3\n\n" ++ stanzaConcat claimStanza variants

/-- The width formula of the amended claim: `h*16/9` in integer
(truncating) division, incremented by one when odd. Written from the
amended claim's words, to be compared with the code's `masterWidth`. -/
def amendedWidth (h : Nat) : Nat :=
  if (h * 16 / 9) % 2 = 0 then h * 16 / 9 else h * 16 / 9 + 1

/-- The per-variant stanza of the amended claim, with the RESOLUTION
width `amendedWidth`. -/
def amendedStanza (v : VariantOutput) : String :=
  "#EXT-X-STREAM-INF:BANDWIDTH=" ++ toString v.variant.bitrate ++
    ",RESOLUTION=" ++ toString (amendedWidth v.variant.height) ++ "x" ++
    toString v.variant.height ++ "\n" ++
    v.variant.name ++ "/playlist.m3u8\n\n"

/-- The playlist content of the amended claim: as `claimPlaylistContent`
but with the amended width formula. -/
def amendedPlaylistContent (variants : List VariantOutput) : String :=
  "#EXTM3U\n#EXT-X-VERSION:3\n\n" ++ stanzaConcat amendedStanza variants


/-- The "trimmed length" the spec's field table refers to for titles:
the number of characters remaining after removing leading and trailing
whitespace. -/
def trimmedLength (s : String) : Nat :=
  ((s.data.dropWhile Char.isWhitespace).reverse.dropWhile Char.isWhitespace).length

/-! ## Concrete sample values used by witnesses and counterexamples -/

/-- Sample non-nil UUID; its canonical string is
`01234567-89ab-cdef-0123-456789abcdef`. -/
def sampleUUID : UUID :=
  ⟨1, 35, 69, 103, 137, 171, 205, 239, 1, 35, 69, 103, 137, 171, 205, 239⟩

/-- A second sample non-nil UUID (a user id). -/
def sampleUserUUID : UUID :=
  ⟨16, 0, 0, 0, 0, 0, 0, 0, 0, 0, 0, 0, 0, 0, 0, 2⟩

/-- A sample freshly created video in `PENDING_UPLOAD`. -/
def sampleVideo : Video :=
  { id := sampleUUID, userID := sampleUserUUID, title := "My Video",
    status := statusPendingUpload, originalURL := "originals/x.mp4", hlsURL := "",
    createdAt := 0, updatedAt := 0 }

/-- A sample video in `PROCESSING`. -/
def sampleProcessingVideo : Video :=
  { sampleVideo with status := statusProcessing }

/-- A sample transcode task whose retry count has reached the default
limit. -/
def sampleSpentTask : TranscodeTask :=
  { videoID := sampleUUID, originalKey := "originals/x.mp4",
    outputKey := "hls/01234567-89ab-cdef-0123-456789abcdef/", retryCount := 3 }

/-- A sample worker environment in which every collaborator succeeds and
the repository holds `sampleProcessingVideo`. -/
def sampleWorkerEnv : WorkerEnv :=
  { maxRetries := defaultMaxRetries, repoVideo := .ok sampleProcessingVideo,
    updateOk := true, hasCache := true, deleteOk := true,
    downloadOk := true, transcodeOk := true, uploadOk := true }

/-- A sample READY video carrying an opaque HLS storage key. -/
def sampleReadyVideo : Video :=
  { sampleVideo with
    status := statusReady
    hlsURL := "hls/01234567-89ab-cdef-0123-456789abcdef/master.m3u8" }

/-- A FAILED video whose stored `hls_url` happens to textually coincide
with the CDN URL the read service would synthesize for it. -/
def coincidingVideo : Video :=
  { sampleVideo with
    status := statusFailed
    hlsURL := "http://localhost:8081/hls/01234567-89ab-cdef-0123-456789abcdef/master.m3u8" }

/-- Variant outputs over the default ABR variants. -/
def defaultVariantOutputs : List VariantOutput :=
  defaultABRVariants.map (fun vr => { variant := vr, manifestPath := "", segmentPaths := [] })

/-- A single variant output of height 14, on which the code's width and
the claim's width differ. -/
def height14Variants : List VariantOutput :=
  [{ variant := { name := "240p", height := 14, bitrate := 400000 },
     manifestPath := "", segmentPaths := [] }]

/-- A sample video for the cache round-trip witness, with
nanosecond-precision timestamps. -/
def sampleCacheVideo : Video :=
  { id := sampleUUID, userID := sampleUserUUID, title := "My Video",
    status := statusReady, originalURL := "originals/x.mp4",
    hlsURL := "hls/01234567-89ab-cdef-0123-456789abcdef/master.m3u8",
    createdAt := 1700000000123456789, updatedAt := 1700000001500000000 }

/-! ## Helper lemmas -/

/-- Go `CanTransitionTo` accepts exactly the three permitted pairs. -/
theorem canTransitionTo_iff (s next : Status) :
    Status.canTransitionTo s next = true ↔ (s, next) ∈ permittedTransitions := by
  unfold Status.canTransitionTo validTransitions permittedTransitions
  by_cases h1 : s = statusPendingUpload
  · rw [if_pos h1]
    subst h1
    rw [List.elem_iff]
    simp [statusPendingUpload, statusProcessing, statusReady, statusFailed]
  · rw [if_neg h1]
    by_cases h2 : s = statusProcessing
    · rw [if_pos h2]
      subst h2
      rw [List.elem_iff]
      simp [statusPendingUpload, statusProcessing, statusReady, statusFailed, h1]
    · rw [if_neg h2]
      by_cases h3 : s = statusReady
      · rw [if_pos h3]
        subst h3
        rw [List.elem_iff]
        simp [statusPendingUpload, statusProcessing, statusReady, statusFailed, h1, h2]
      · rw [if_neg h3]
        by_cases h4 : s = statusFailed
        · rw [if_pos h4]
          subst h4
          rw [List.elem_iff]
          simp [statusPendingUpload, statusProcessing, statusReady, statusFailed, h1, h2, h3]
        · rw [if_neg h4]
          simp only [permittedTransitions]
          constructor
          · intro h
            exact absurd h (by simp)
          · intro h
            rcases List.mem_cons.mp h with h | h
            · exact absurd (congrArg Prod.fst h) h1
            · rcases List.mem_cons.mp h with h | h
              · exact absurd (congrArg Prod.fst h) h2
              · rcases List.mem_cons.mp h with h | h
                · exact absurd (congrArg Prod.fst h) h2
                · simp at h

/-- Decoding inverts encoding on each hex digit. -/
theorem hexVal_nibbleChar : ∀ n : Fin 16, hexVal (nibbleChar n) = some n := by decide

/-- Decoding inverts encoding on each byte's two hex characters. -/
theorem hexByte_byteChars (b : Fin 256) :
    hexByte (nibbleChar (byteHi b)) (nibbleChar (byteLo b)) = some b := by
  unfold hexByte
  rw [hexVal_nibbleChar, hexVal_nibbleChar]
  exact congrArg some (Fin.ext (by simp [byteHi, byteLo]; omega))

/-- Go `uuid.Parse` inverts `uuid.String()`. -/
theorem uuidParse_toString (u : UUID) : uuidParse (uuidToString u) = some u := by
  cases u with
  | mk b0 b1 b2 b3 b4 b5 b6 b7 b8 b9 b10 b11 b12 b13 b14 b15 =>
    simp only [uuidToString, uuidParse, byteChars, List.cons_append, List.nil_append,
      hexByte_byteChars, Option.bind_eq_bind, Option.some_bind]

/-- Resolved form of `markVideoFailed`: the FAILED transition succeeds
whenever the fetched row is in PROCESSING. -/
theorem markVideoFailed_eq (env : WorkerEnv) (now : Time) :
    markVideoFailed env now =
      match env.repoVideo with
      | .error e => (some ("get video: " ++ e), noEffects)
      | .ok v =>
        if v.status = statusProcessing then
          if env.updateOk then
            (none, { noEffects with
                     persisted := some { v with status := statusFailed, updatedAt := now },
                     cacheDeleted := invalidateCache env })
          else (some "update video", noEffects)
        else (none, noEffects) := by
  unfold markVideoFailed
  rcases env.repoVideo with e | v
  · rfl
  · simp only []
    by_cases hs : v.status = statusProcessing
    · rw [if_neg (by simp [hs]), if_pos hs]
      have htrans : v.transitionTo statusFailed now =
          (none, { v with status := statusFailed, updatedAt := now }) := by
        unfold Video.transitionTo
        rw [if_neg (by decide), if_neg (by simp [Status.canTransitionTo, validTransitions, hs,
          statusProcessing, statusPendingUpload, statusReady, statusFailed])]
      rw [htrans]
      cases hu : env.updateOk <;> simp [hu]
    · rw [if_pos (by simp [hs]), if_neg hs]

/-- The code's width agrees with the amended claim's width formula. -/
theorem masterWidth_eq (h : Nat) : masterWidth h = amendedWidth h := by
  unfold masterWidth amendedWidth
  by_cases hp : (h * 16 / 9) % 2 = 0 <;> simp [hp]

/-- The string-builder loop of `generateMasterPlaylist` concatenates one
stanza per variant after the seed. -/
theorem stanzaConcat_foldl (l : List VariantOutput) (s : String) :
    l.foldl (fun acc v => acc ++ variantStanza v) s = s ++ stanzaConcat variantStanza l := by
  induction l generalizing s with
  | nil => simp [stanzaConcat, String.append_empty]
  | cons v rest ih => simp [stanzaConcat, ih, String.append_assoc]

/-- The code's stanza equals the amended claim's stanza, variant by
variant. -/
theorem stanzaConcat_amended (l : List VariantOutput) :
    stanzaConcat variantStanza l = stanzaConcat amendedStanza l := by
  induction l with
  | nil => rfl
  | cons v rest ih =>
    unfold stanzaConcat
    rw [ih]
    congr 1
    unfold variantStanza amendedStanza
    rw [masterWidth_eq]

/-! ## Claim theorems -/

/-- C1: for every video entity and every status pair, a permitted
transition succeeds, sets the status to the target and strictly advances
`updated_at`; every other pair fails with invalid-transition and leaves
the entity (all fields) unchanged. `time.Now()` is modelled by the
explicit `now`, about which the program guarantees only that it is later
than the entity's current `updated_at`. -/
theorem transitionTo_spec (v : Video) (next : Status) (now : Time)
    (hnow : v.updatedAt < now) :
    ((v.status, next) ∈ permittedTransitions →
      v.transitionTo next now = (none, { v with status := next, updatedAt := now }) ∧
      v.updatedAt < (v.transitionTo next now).2.updatedAt) ∧
    ((v.status, next) ∉ permittedTransitions →
      v.transitionTo next now = (some .invalidTransition, v)) := by
  constructor
  · intro hmem
    have hcan : Status.canTransitionTo v.status next = true :=
      (canTransitionTo_iff v.status next).mpr hmem
    have hvalid : Status.isValid next = true := by
      simp only [permittedTransitions, List.mem_cons, List.not_mem_nil, or_false] at hmem
      rcases hmem with h | h | h <;>
        · have := congrArg Prod.snd h
          simp only at this
          subst this
          decide
    have heq : v.transitionTo next now = (none, { v with status := next, updatedAt := now }) := by
      unfold Video.transitionTo
      rw [if_neg (by simp [hvalid]), if_neg (by simp [hcan])]
    exact ⟨heq, by rw [heq]; exact hnow⟩
  · intro hmem
    have hcan : ¬ Status.canTransitionTo v.status next = true := fun hc =>
      hmem ((canTransitionTo_iff v.status next).mp hc)
    unfold Video.transitionTo
    by_cases hvalid : Status.isValid next = true
    · rw [if_neg (by simp [hvalid]), if_pos (by simp [hcan])]
    · rw [if_pos (by simpa using hvalid)]

/-- Witness for C1: the sample PENDING_UPLOAD video transitions to
PROCESSING at time 5. -/
theorem transitionTo_spec_witness :
    sampleVideo.transitionTo statusProcessing 5 =
      (none, { sampleVideo with status := statusProcessing, updatedAt := 5 }) :=
  ((transitionTo_spec sampleVideo statusProcessing 5 (by decide)).1 (by decide)).1

/-- C2: `TriggerProcess` by current status: PROCESSING returns success
with no write and no publish; READY or FAILED fails with
already-completed, with no write and no publish; PENDING_UPLOAD (with
the update and publish succeeding) persists the video transitioned to
PROCESSING and publishes exactly one task carrying the video's id, its
`original_url` as original key, `hls/{id}/` as output key prefix, and a
zero retry count. -/
theorem triggerProcess_spec (v : Video) (now : Time) (updateOk publishOk : Bool) :
    (v.status = statusProcessing →
      triggerProcess v now updateOk publishOk = (none, none, none)) ∧
    (v.status = statusReady ∨ v.status = statusFailed →
      triggerProcess v now updateOk publishOk = (some .alreadyCompleted, none, none)) ∧
    (v.status = statusPendingUpload → updateOk = true → publishOk = true →
      triggerProcess v now updateOk publishOk =
        (none, some { v with status := statusProcessing, updatedAt := now },
         some { videoID := v.id, originalKey := v.originalURL,
                outputKey := "hls/" ++ uuidToString v.id ++ "/", retryCount := 0 })) := by
  refine ⟨fun hs => ?_, fun hs => ?_, fun hs hu hp => ?_⟩
  · simp [triggerProcess, hs]
  · rcases hs with hs | hs <;>
      simp [triggerProcess, hs, statusProcessing, statusReady, statusFailed]
  · subst hu hp
    simp only [triggerProcess, hs]
    rw [if_neg (by simp [statusPendingUpload, statusProcessing]),
        if_neg (by simp [statusPendingUpload, statusReady, statusFailed])]
    have htrans : v.transitionTo statusProcessing now =
        (none, { v with status := statusProcessing, updatedAt := now }) := by
      unfold Video.transitionTo
      rw [if_neg (by decide), if_neg (by simp [Status.canTransitionTo, validTransitions, hs])]
    rw [htrans]
    simp [generateHLSOutputKey, pathJoin]

/-- Witness for C2: the sample PENDING_UPLOAD video is transitioned,
persisted and published at time 5. -/
theorem triggerProcess_spec_witness :
    triggerProcess sampleVideo 5 true true =
      (none, some { sampleVideo with status := statusProcessing, updatedAt := 5 },
       some { videoID := sampleVideo.id, originalKey := sampleVideo.originalURL,
              outputKey := "hls/" ++ uuidToString sampleVideo.id ++ "/", retryCount := 0 }) :=
  (triggerProcess_spec sampleVideo 5 true true).2.2 rfl rfl rfl

/-- C3: when a task's retry count has reached the configured limit,
`ProcessTask` downloads, transcodes and uploads nothing and returns
success; a row found in PROCESSING (with the update succeeding) is
persisted as FAILED and, when a cache is wired and its delete succeeds,
the cache entry is removed; a row not in PROCESSING leaves no effect;
and a failing FAILED write still yields success. -/
theorem processTask_maxRetries_spec (task : TranscodeTask) (env : WorkerEnv) (now : Time)
    (hmax : env.maxRetries ≤ task.retryCount) :
    (processTask task env now).1 = none ∧
    (processTask task env now).2.downloaded = false ∧
    (processTask task env now).2.transcoded = false ∧
    (processTask task env now).2.uploaded = false ∧
    (∀ v, env.repoVideo = .ok v → v.status = statusProcessing → env.updateOk = true →
      (processTask task env now).2.persisted =
        some { v with status := statusFailed, updatedAt := now } ∧
      (env.hasCache = true → env.deleteOk = true →
        (processTask task env now).2.cacheDeleted = true)) ∧
    (∀ v, env.repoVideo = .ok v → v.status ≠ statusProcessing →
      (processTask task env now).2 = noEffects) ∧
    (env.updateOk = false → (processTask task env now).2.persisted = none) := by
  have hb : processTask task env now = (none, (markVideoFailed env now).2) := by
    unfold processTask
    rw [if_pos hmax]
  rw [hb, markVideoFailed_eq]
  refine ⟨rfl, ?_, ?_, ?_, ?_, ?_, ?_⟩
  · rcases h : env.repoVideo with e | v
    · rfl
    · dsimp only
      split_ifs <;> rfl
  · rcases h : env.repoVideo with e | v
    · rfl
    · dsimp only
      split_ifs <;> rfl
  · rcases h : env.repoVideo with e | v
    · rfl
    · dsimp only
      split_ifs <;> rfl
  · intro v hv hs hu
    rw [hv]
    dsimp only
    rw [if_pos hs, if_pos hu]
    exact ⟨rfl, fun hc hd => by simp [invalidateCache, hc, hd]⟩
  · intro v hv hs
    rw [hv]
    dsimp only
    rw [if_neg hs]
  · intro hu
    rcases h : env.repoVideo with e | v
    · rfl
    · dsimp only
      by_cases hs : v.status = statusProcessing <;> simp [hs, hu, noEffects]

/-- Witness for C3: a task at the default retry limit against a
PROCESSING row is acked, the row is persisted as FAILED and the cache
entry removed, with no download attempted. -/
theorem processTask_maxRetries_witness :
    (processTask sampleSpentTask sampleWorkerEnv 7).1 = none ∧
    (processTask sampleSpentTask sampleWorkerEnv 7).2.persisted =
      some { sampleProcessingVideo with status := statusFailed, updatedAt := 7 } ∧
    (processTask sampleSpentTask sampleWorkerEnv 7).2.cacheDeleted = true ∧
    (processTask sampleSpentTask sampleWorkerEnv 7).2.downloaded = false := by
  have T := processTask_maxRetries_spec sampleSpentTask sampleWorkerEnv 7 (by decide)
  exact ⟨T.1, (T.2.2.2.2.1 sampleProcessingVideo rfl rfl rfl).1,
    (T.2.2.2.2.1 sampleProcessingVideo rfl rfl rfl).2 rfl rfl, T.2.1⟩

/-- C4: per delivery of the broker consume loop: a payload that fails to
parse is nacked without requeue and the handler never runs; a successful
handler acks; a failing handler republishes the task with the retry
count incremented by one and acks the original; a failing republish
nacks the original without requeue. -/
theorem consumeStep_spec (parsed : Option TranscodeTask)
    (handlerOk : TranscodeTask → Bool) (republishOk : Bool) :
    (parsed = none →
      consumeStep parsed handlerOk republishOk = (.nackDiscard, none, [])) ∧
    (∀ task, parsed = some task → handlerOk task = true →
      consumeStep parsed handlerOk republishOk = (.ack, none, [task])) ∧
    (∀ task, parsed = some task → handlerOk task = false → republishOk = true →
      consumeStep parsed handlerOk republishOk =
        (.ack, some { task with retryCount := task.retryCount + 1 }, [task])) ∧
    (∀ task, parsed = some task → handlerOk task = false → republishOk = false →
      consumeStep parsed handlerOk republishOk = (.nackDiscard, none, [task])) := by
  refine ⟨fun hp => ?_, fun task hp hh => ?_, fun task hp hh hr => ?_, fun task hp hh hr => ?_⟩
  · rw [hp]
    rfl
  · rw [hp]
    simp [consumeStep, hh]
  · rw [hp]
    simp [consumeStep, hh, hr]
  · rw [hp]
    simp [consumeStep, hh, hr]

/-- Witness for C4: a failing handler on the sample task with a working
republish leads to ack of the original and a republished task with the
retry count incremented. -/
theorem consumeStep_spec_witness :
    consumeStep (some sampleSpentTask) (fun _ => false) true =
      (.ack, some { sampleSpentTask with retryCount := sampleSpentTask.retryCount + 1 },
       [sampleSpentTask]) :=
  (consumeStep_spec (some sampleSpentTask) (fun _ => false) true).2.2.1 sampleSpentTask rfl rfl rfl

/-- C5 (amended): `get(id)` returns `{cdn_base}/hls/{id}/master.m3u8`
as `hls_url` whenever the video's status is READY and its stored
`hls_url` is non-empty; otherwise the video is returned unchanged, so
the returned `hls_url` equals the stored value; the rewrite is applied
to a copy after the cache read, so the cache keeps (or, on a fill,
receives) the record with the opaque storage key. -/
theorem getVideoCDN_spec (cdnBase : String) (cget : CacheGet)
    (store : Except String Video) (setOk : Bool) :
    (∀ v, v.status = statusReady → v.hlsURL ≠ "" →
      (enrichWithCDNURL cdnBase v).hlsURL =
        cdnBase ++ "/" ++ "hls" ++ "/" ++ uuidToString v.id ++ "/" ++ "master.m3u8") ∧
    (∀ v, ¬(v.status = statusReady ∧ v.hlsURL ≠ "") →
      enrichWithCDNURL cdnBase v = v) ∧
    (∀ v, cget = .hit v →
      getVideo cdnBase cget store setOk =
        (.ok (enrichWithCDNURL cdnBase v), false, none)) ∧
    (∀ v, cget = .miss → store = .ok v → setOk = true →
      getVideo cdnBase cget store setOk =
        (.ok (enrichWithCDNURL cdnBase v), true, some v)) := by
  refine ⟨fun v h1 h2 => ?_, fun v h => ?_, fun v hc => ?_, fun v hc hs hset => ?_⟩
  · unfold enrichWithCDNURL
    rw [if_neg (by simp [h1, h2])]
    simp only [buildCDNURL, pathJoin, String.append_assoc]
  · unfold enrichWithCDNURL
    rcases not_and_or.mp h with h1 | h2
    · rw [if_pos (by simp [h1])]
    · rw [if_pos (by simp [not_not.mp h2])]
  · rw [hc]
    rfl
  · rw [hc, hs, hset]
    rfl

/-- Witness for C5: the sample READY video with a non-empty stored key
is returned with the CDN URL. -/
theorem getVideoCDN_spec_witness :
    (enrichWithCDNURL "http://localhost:8081" sampleReadyVideo).hlsURL =
      "http://localhost:8081" ++ "/" ++ "hls" ++ "/" ++ uuidToString sampleReadyVideo.id ++
        "/" ++ "master.m3u8" :=
  (getVideoCDN_spec "http://localhost:8081" (.hit sampleReadyVideo)
    (.ok sampleReadyVideo) true).1 sampleReadyVideo rfl (by decide)

/-- Counterexample for C5 as stated: a FAILED video whose stored
`hls_url` textually coincides with the CDN URL is returned with an
`hls_url` equal to `{cdn_base}/hls/{id}/master.m3u8` although its status
is not READY, refuting the only-if direction of the claim's iff. -/
theorem enrichWithCDNURL_iff_counterexample :
    (enrichWithCDNURL "http://localhost:8081" coincidingVideo).hlsURL =
      "http://localhost:8081" ++ "/" ++ "hls" ++ "/" ++ uuidToString coincidingVideo.id ++
        "/" ++ "master.m3u8" ∧
    ¬(coincidingVideo.status = statusReady ∧ coincidingVideo.hlsURL ≠ "") := by
  constructor
  · decide
  · decide

/-- C6: an error from the metadata cache is never returned by the read
path: a hit returns the cached entity without calling the backing
store; an error or a miss degrades to the authoritative store, whose
result is returned; and the outcome of the subsequent cache set changes
nothing about the returned result. -/
theorem getVideoWithCache_spec (cget : CacheGet) (store : Except String Video)
    (setOk : Bool) :
    (∀ v, cget = .hit v →
      getVideoWithCache cget store setOk = (.ok v, false, none)) ∧
    (cget = .miss ∨ cget = .errored →
      (getVideoWithCache cget store setOk).1 = store ∧
      (getVideoWithCache cget store setOk).2.1 = true) ∧
    (∀ setOk', (getVideoWithCache cget store setOk').1 =
      (getVideoWithCache cget store setOk).1) := by
  refine ⟨fun v hc => ?_, fun hc => ?_, fun setOk' => ?_⟩
  · rw [hc]
    rfl
  · rcases hc with hc | hc <;>
      · rw [hc]
        rcases store with e | v <;> simp [getVideoWithCache]
  · rcases cget with v | _ | _
    · rfl
    all_goals rcases store with e | v <;> rfl

/-- Witness for C6: a cache error on the sample video degrades to the
store, whose value is returned. -/
theorem getVideoWithCache_spec_witness :
    (getVideoWithCache .errored (.ok sampleReadyVideo) false).1 = .ok sampleReadyVideo ∧
    (getVideoWithCache .errored (.ok sampleReadyVideo) false).2.1 = true :=
  (getVideoWithCache_spec .errored (.ok sampleReadyVideo) false).2.1 (Or.inr rfl)

/-- C7 (amended): for every non-empty variant list the master playlist
is the `#EXTM3U`/`#EXT-X-VERSION:3` header followed, in source order, by
one `#EXT-X-STREAM-INF` line and variant-playlist path per variant,
where the width is `h*16/9` in truncating integer division, incremented
by one when odd. -/
theorem masterPlaylist_spec (variants : List VariantOutput) (hne : variants ≠ []) :
    masterPlaylistContent variants = amendedPlaylistContent variants := by
  unfold masterPlaylistContent amendedPlaylistContent
  rw [stanzaConcat_foldl, stanzaConcat_amended]
  congr 1

/-- Witness for C7: the default ABR variant list (1080p/720p/360p). -/
theorem masterPlaylist_spec_witness :
    defaultVariantOutputs ≠ [] ∧
    masterPlaylistContent defaultVariantOutputs = amendedPlaylistContent defaultVariantOutputs :=
  ⟨by decide, masterPlaylist_spec defaultVariantOutputs (by decide)⟩

/-- Counterexample for C7 as stated: at variant height 14 the code
computes width `14*16/9 = 24` (truncated, already even) while the least
even integer at or above the exact `14*16/9 = 24.888...` is 26, so the
generated playlist differs from the claim's prescription. -/
theorem masterPlaylist_counterexample :
    masterPlaylistContent height14Variants ≠ claimPlaylistContent height14Variants := by
  decide

/-- C8 (amended): the constructor yields a PENDING_UPLOAD entity with
the fresh identifier when the user id is non-nil, the title non-empty
and at most 255 bytes; it fails with invalid-user-id on the zero user
id, with empty-title when the title is the empty string (no trimming is
applied), and with title-too-long above 255 bytes. -/
theorem newVideo_spec (userID : UUID) (title : String) (freshID : UUID) (now : Time) :
    (userID = uuidNil → newVideo userID title freshID now = .error .invalidUserID) ∧
    (userID ≠ uuidNil → title = "" →
      newVideo userID title freshID now = .error .emptyTitle) ∧
    (userID ≠ uuidNil → title ≠ "" → maxTitleLength < title.utf8ByteSize →
      newVideo userID title freshID now = .error .titleTooLong) ∧
    (userID ≠ uuidNil → title ≠ "" → title.utf8ByteSize ≤ maxTitleLength →
      newVideo userID title freshID now =
        .ok { id := freshID, userID := userID, title := title,
              status := statusPendingUpload, originalURL := "", hlsURL := "",
              createdAt := now, updatedAt := now }) := by
  refine ⟨fun h => ?_, fun h1 h2 => ?_, fun h1 h2 h3 => ?_, fun h1 h2 h3 => ?_⟩
  · simp [newVideo, h]
  · simp [newVideo, h1, h2]
  · simp [newVideo, h1, h2, h3]
  · unfold newVideo
    rw [if_neg h1, if_neg h2, if_neg (by omega)]

/-- Witness for C8: a valid user id and title produce the
PENDING_UPLOAD entity. -/
theorem newVideo_spec_witness :
    newVideo sampleUserUUID "My Video" sampleUUID 3 =
      .ok { id := sampleUUID, userID := sampleUserUUID, title := "My Video",
            status := statusPendingUpload, originalURL := "", hlsURL := "",
            createdAt := 3, updatedAt := 3 } :=
  (newVideo_spec sampleUserUUID "My Video" sampleUUID 3).2.2.2 (by decide) (by decide) (by decide)

/-- Counterexample for C8 as stated: the title `" "` has trimmed length
zero, yet the constructor accepts it (it only rejects the literally
empty string), so "empty-title when the title's trimmed length is zero"
does not hold of the code. -/
theorem newVideo_untrimmed_counterexample :
    trimmedLength " " = 0 ∧
    newVideo sampleUserUUID " " sampleUUID 0 =
      .ok { id := sampleUUID, userID := sampleUserUUID, title := " ",
            status := statusPendingUpload, originalURL := "", hlsURL := "",
            createdAt := 0, updatedAt := 0 } := by
  refine ⟨by decide, rfl⟩

/-- C10: deserializing the serialization of a video whose timestamps are
representable in RFC3339Nano text form succeeds and restores all eight
fields. -/
theorem deserialize_serialize_roundtrip (v : Video)
    (hc : timeParse (timeFormat v.createdAt) = some v.createdAt)
    (hu : timeParse (timeFormat v.updatedAt) = some v.updatedAt) :
    deserialize (serialize v) = .ok v := by
  have h1 : uuidParse (serialize v).id = some v.id := uuidParse_toString v.id
  have h2 : uuidParse (serialize v).userID = some v.userID := uuidParse_toString v.userID
  have h3 : timeParse (serialize v).createdAt = some v.createdAt := hc
  have h4 : timeParse (serialize v).updatedAt = some v.updatedAt := hu
  unfold deserialize
  rw [h1, h2, h3, h4]
  rfl

/-- Witness for C10: the sample cached video with nanosecond timestamps
round-trips. -/
theorem deserialize_serialize_roundtrip_witness :
    timeParse (timeFormat sampleCacheVideo.createdAt) = some sampleCacheVideo.createdAt ∧
    timeParse (timeFormat sampleCacheVideo.updatedAt) = some sampleCacheVideo.updatedAt ∧
    deserialize (serialize sampleCacheVideo) = .ok sampleCacheVideo := by
  have h1 : timeParse (timeFormat sampleCacheVideo.createdAt) =
      some sampleCacheVideo.createdAt := by decide
  have h2 : timeParse (timeFormat sampleCacheVideo.updatedAt) =
      some sampleCacheVideo.updatedAt := by decide
  exact ⟨h1, h2, deserialize_serialize_roundtrip sampleCacheVideo h1 h2⟩
